import Mathlib

/-!
Shallow embedding of the emacs-tramp-rpc server (`src/server/src`) and proofs
about its transport loop, dispatcher, process supervisors and filesystem
watcher.  Rust functions are translated into executable Lean definitions;
machine integers are modelled as `Nat`/`Int`, byte buffers as `List Nat`
(each element a byte value), fallible operations as `Option`/`Except`, and
OS effects (waitpid, canonicalize, sink writes, handler bodies) as explicit
oracle parameters.
-/

namespace TrampRpc

/-- The self-describing binary value model of the wire protocol
(`rmpv::Value`): nil, bool, integer, float (kept abstract as its raw bit
pattern, no arithmetic is ever performed on it), UTF-8 string, raw bytes,
array, and map with arbitrary keys. -/
inductive MsgValue where
  | nil : MsgValue
  | bool (b : Bool) : MsgValue
  | int (n : Int) : MsgValue
  | float64 (bits : Nat) : MsgValue
  | str (s : String) : MsgValue
  | bin (b : List Nat) : MsgValue
  | arr (xs : List MsgValue) : MsgValue
  | map (kvs : List (MsgValue × MsgValue)) : MsgValue

/-- Build a map value whose keys are strings, the shape used by every
envelope and handler result in the server. -/
def mkMap (kvs : List (String × MsgValue)) : MsgValue :=
  .map (kvs.map (fun kv => (.str kv.1, kv.2)))

/-- `protocol.rs` `RequestId`: a request id is an integer or a string
(untagged). -/
inductive RequestId where
  | num (n : Int) : RequestId
  | str (s : String) : RequestId
deriving DecidableEq

/-- `protocol.rs` `Request`: `{ version, id, method, params }`, `params`
defaulting to nil. -/
structure Request where
  version : String
  id : RequestId
  method : String
  params : MsgValue

/-- `protocol.rs` `RpcError`: `{ code, message, data? }`. -/
structure RpcError where
  code : Int
  message : String
  data : Option MsgValue

/-- `protocol.rs` `Response`: `{ version, id?, result?, error? }`;
`None` fields are skipped during serialization. -/
structure Response where
  version : String
  id : Option RequestId
  result : Option MsgValue
  error : Option RpcError

/-- `Response::success` (`protocol.rs` lines 42-49). -/
def Response.success (id : RequestId) (result : MsgValue) : Response :=
  ⟨"2.0", some id, some result, none⟩

/-- `Response::error` (`protocol.rs` lines 51-58). -/
def Response.mkError (id : Option RequestId) (e : RpcError) : Response :=
  ⟨"2.0", id, none, some e⟩

/-- `RpcError::parse_error` (code -32700). -/
def RpcError.parseError (msg : String) : RpcError := ⟨-32700, msg, none⟩

/-- `RpcError::invalid_request` (code -32600). -/
def RpcError.invalidRequest (msg : String) : RpcError := ⟨-32600, msg, none⟩

/-- `RpcError::method_not_found` (code -32601). -/
def RpcError.methodNotFound (method : String) : RpcError :=
  ⟨-32601, "Method not found: " ++ method, none⟩

/-- `RpcError.invalid_params` (code -32602). -/
def RpcError.invalidParams (msg : String) : RpcError := ⟨-32602, msg, none⟩

/-- `RpcError.internal_error` (code -32603). -/
def RpcError.internalError (msg : String) : RpcError := ⟨-32603, msg, none⟩

/-- The process-error code -32004 (`RpcError::PROCESS_ERROR`). -/
def processErrorCode : Int := -32004

/-- A process error with code -32004, as built literally at the call sites
in `handlers/process.rs`. -/
def RpcError.processError (msg : String) : RpcError := ⟨processErrorCode, msg, none⟩

/-! ## UTF-8 decoding

`std::str::from_utf8` validation, byte for byte: ASCII, 2/3/4-byte
sequences with the exact continuation ranges that exclude overlong forms,
surrogates and code points above `0x10FFFF`. -/

/-- A UTF-8 continuation byte: `0x80 ≤ b ≤ 0xBF`. -/
def utf8Cont (b : Nat) : Bool := 0x80 ≤ b && b ≤ 0xBF

/-- Decode a byte list as UTF-8, returning the decoded characters, or
`none` exactly when Rust's `str::from_utf8` rejects the bytes. -/
def decodeUtf8 : List Nat → Option (List Char)
  | [] => some []
  | b1 :: t1 =>
    if b1 < 0x80 then
      (decodeUtf8 t1).map (fun cs => Char.ofNat b1 :: cs)
    else if b1 < 0xC2 then none
    else if b1 ≤ 0xDF then
      match t1 with
      | b2 :: t2 =>
        if utf8Cont b2 then
          (decodeUtf8 t2).map (fun cs => Char.ofNat ((b1 - 0xC0) * 0x40 + (b2 - 0x80)) :: cs)
        else none
      | [] => none
    else if b1 ≤ 0xEF then
      match t1 with
      | b2 :: b3 :: t3 =>
        let ok2 : Bool :=
          if b1 = 0xE0 then 0xA0 ≤ b2 && b2 ≤ 0xBF
          else if b1 = 0xED then 0x80 ≤ b2 && b2 ≤ 0x9F
          else utf8Cont b2
        if ok2 && utf8Cont b3 then
          (decodeUtf8 t3).map (fun cs =>
            Char.ofNat ((b1 - 0xE0) * 0x1000 + (b2 - 0x80) * 0x40 + (b3 - 0x80)) :: cs)
        else none
      | _ => none
    else if b1 ≤ 0xF4 then
      match t1 with
      | b2 :: b3 :: b4 :: t4 =>
        let ok2 : Bool :=
          if b1 = 0xF0 then 0x90 ≤ b2 && b2 ≤ 0xBF
          else if b1 = 0xF4 then 0x80 ≤ b2 && b2 ≤ 0x8F
          else utf8Cont b2
        if ok2 && utf8Cont b3 && utf8Cont b4 then
          (decodeUtf8 t4).map (fun cs =>
            Char.ofNat ((b1 - 0xF0) * 0x40000 + (b2 - 0x80) * 0x1000
              + (b3 - 0x80) * 0x40 + (b4 - 0x80)) :: cs)
        else none
      | _ => none
    else none

/-- Whether a byte list is valid UTF-8 (`std::str::from_utf8(..).is_ok()`). -/
def isValidUtf8 (bs : List Nat) : Bool := (decodeUtf8 bs).isSome

/-! ## Base64 (the `STANDARD` engine with `=` padding) -/

/-- The standard base64 alphabet character for a sextet. -/
def b64char (n : Nat) : Char :=
  "ABCDEFGHIJKLMNOPQRSTUVWXYZabcdefghijklmnopqrstuvwxyz0123456789+/".toList.getD n 'A'

/-- `BASE64.encode`: encode bytes in 3-byte groups, padding with `=`. -/
def base64Chars : List Nat → List Char
  | [] => []
  | [a] => [b64char (a / 4), b64char (a % 4 * 16), '=', '=']
  | [a, b] => [b64char (a / 4), b64char (a % 4 * 16 + b / 16), b64char (b % 16 * 4), '=']
  | a :: b :: c :: rest =>
    b64char (a / 4) :: b64char (a % 4 * 16 + b / 16)
      :: b64char (b % 16 * 4 + c / 64) :: b64char (c % 64) :: base64Chars rest

/-- The sextet value of a base64 alphabet character (inverse of `b64char`
on the alphabet). -/
def b64val (c : Char) : Nat :=
  let n := c.toNat
  if 65 ≤ n ∧ n ≤ 90 then n - 65
  else if 97 ≤ n ∧ n ≤ 122 then n - 71
  else if 48 ≤ n ∧ n ≤ 57 then n + 4
  else if n = 43 then 62
  else 63

/-- Base64 decoding of a padded character stream back to bytes. -/
def b64decodeChars : List Char → List Nat
  | c1 :: c2 :: c3 :: c4 :: rest =>
    if c3 = '=' then [b64val c1 * 4 + b64val c2 / 16]
    else if c4 = '=' then
      [b64val c1 * 4 + b64val c2 / 16, b64val c2 % 16 * 16 + b64val c3 / 4]
    else
      (b64val c1 * 4 + b64val c2 / 16) :: (b64val c2 % 16 * 16 + b64val c3 / 4)
        :: (b64val c3 % 4 * 64 + b64val c4) :: b64decodeChars rest
  | _ => []

/-! ## `smart_encode` (`handlers/process.rs` lines 22-36) -/

/-- The encoding tag attached to process output fields. The server code
uses it as the `(encoded, encoding)` pair returned by `smart_encode`. -/
inductive OutputEncoding where
  | text : OutputEncoding
  | base64 : OutputEncoding
deriving DecidableEq

/-- `smart_encode`: interpret the bytes as UTF-8 text when valid, otherwise
base64-encode them; return the string together with its encoding tag. -/
def smart_encode (data : List Nat) : String × OutputEncoding :=
  match decodeUtf8 data with
  | some cs => (String.mk cs, .text)
  | none => (String.mk (base64Chars data), .base64)

/-! ## MessagePack serialization (`rmp_serde::to_vec_named`)

Big-endian byte helpers and the compact MessagePack encoding used by
`rmp_serde` when serializing a `Response`.  The encoding is total, which
mirrors the fact that `rmp_serde::to_vec_named(&response)` cannot fail on
the `Response` type (it writes to an in-memory buffer). -/

/-- Big-endian 16-bit bytes of `n % 2^16`. -/
def be16 (n : Nat) : List Nat := [n / 0x100 % 0x100, n % 0x100]

/-- Big-endian 32-bit bytes of `n % 2^32` (also the frame length prefix). -/
def be32 (n : Nat) : List Nat :=
  [n / 0x1000000 % 0x100, n / 0x10000 % 0x100, n / 0x100 % 0x100, n % 0x100]

/-- Big-endian 64-bit bytes of `n % 2^64`. -/
def be64 (n : Nat) : List Nat :=
  be32 (n / 0x100000000) ++ be32 n

/-- UTF-8 bytes of one character. -/
def utf8EncodeCharNat (c : Char) : List Nat :=
  let n := c.toNat
  if n < 0x80 then [n]
  else if n < 0x800 then [0xC0 + n / 0x40, 0x80 + n % 0x40]
  else if n < 0x10000 then
    [0xE0 + n / 0x1000, 0x80 + n / 0x40 % 0x40, 0x80 + n % 0x40]
  else
    [0xF0 + n / 0x40000, 0x80 + n / 0x1000 % 0x40, 0x80 + n / 0x40 % 0x40, 0x80 + n % 0x40]

/-- UTF-8 bytes of a string. -/
def strUtf8 (s : String) : List Nat := s.toList.flatMap utf8EncodeCharNat

/-- Compact MessagePack integer encoding (`rmp::encode::write_sint`). -/
def encInt (i : Int) : List Nat :=
  if 0 ≤ i then
    let n := i.toNat
    if n < 0x80 then [n]
    else if n < 0x100 then [0xCC, n]
    else if n < 0x10000 then 0xCD :: be16 n
    else if n < 0x100000000 then 0xCE :: be32 n
    else 0xCF :: be64 n
  else
    let m := (-i).toNat
    if m ≤ 32 then [0x100 - m]
    else if m ≤ 0x80 then [0xD0, 0x100 - m]
    else if m ≤ 0x8000 then 0xD1 :: be16 (0x10000 - m)
    else if m ≤ 0x80000000 then 0xD2 :: be32 (0x100000000 - m)
    else 0xD3 :: be64 (0x10000000000000000 - m)

/-- MessagePack string encoding (`rmp::encode::write_str`). -/
def encStrBytes (s : String) : List Nat :=
  let b := strUtf8 s
  if b.length < 32 then (0xA0 + b.length) :: b
  else if b.length < 0x100 then 0xD9 :: b.length :: b
  else if b.length < 0x10000 then 0xDA :: be16 b.length ++ b
  else 0xDB :: be32 b.length ++ b

/-- MessagePack bin encoding (`rmp::encode::write_bin`). -/
def encBinBytes (b : List Nat) : List Nat :=
  if b.length < 0x100 then 0xC4 :: b.length :: b
  else if b.length < 0x10000 then 0xC5 :: be16 b.length ++ b
  else 0xC6 :: be32 b.length ++ b

/-- MessagePack array header for `n` elements. -/
def arrHeader (n : Nat) : List Nat :=
  if n < 16 then [0x90 + n]
  else if n < 0x10000 then 0xDC :: be16 n
  else 0xDD :: be32 n

/-- MessagePack map header for `n` pairs. -/
def mapHeader (n : Nat) : List Nat :=
  if n < 16 then [0x80 + n]
  else if n < 0x10000 then 0xDE :: be16 n
  else 0xDF :: be32 n

mutual

/-- MessagePack encoding of one value. -/
def encodeValue : MsgValue → List Nat
  | .nil => [0xC0]
  | .bool false => [0xC2]
  | .bool true => [0xC3]
  | .int n => encInt n
  | .float64 bits => 0xCB :: be64 bits
  | .str s => encStrBytes s
  | .bin b => encBinBytes b
  | .arr xs => arrHeader xs.length ++ encodeValueList xs
  | .map kvs => mapHeader kvs.length ++ encodeValuePairs kvs

/-- MessagePack encoding of array elements, in order. -/
def encodeValueList : List MsgValue → List Nat
  | [] => []
  | x :: xs => encodeValue x ++ encodeValueList xs

/-- MessagePack encoding of map pairs, in order. -/
def encodeValuePairs : List (MsgValue × MsgValue) → List Nat
  | [] => []
  | (k, v) :: kvs => encodeValue k ++ encodeValue v ++ encodeValuePairs kvs

end

/-- Serde serialization of a `RequestId` (untagged: number or string). -/
def RequestId.toValue : RequestId → MsgValue
  | .num n => .int n
  | .str s => .str s

/-- Serde serialization of an `RpcError` as a named map, skipping a `None`
`data` field. -/
def RpcError.toValue (e : RpcError) : MsgValue :=
  .map ([(.str "code", .int e.code), (.str "message", .str e.message)]
    ++ (match e.data with
        | some d => [((.str "data" : MsgValue), d)]
        | none => []))

/-- Serde serialization of a `Response` as a named map in field order
`version`, `id`, `result`, `error`, skipping `None` fields. -/
def Response.toValue (r : Response) : MsgValue :=
  .map ([((.str "version" : MsgValue), (.str r.version : MsgValue))]
    ++ (match r.id with
        | some i => [((.str "id" : MsgValue), i.toValue)]
        | none => [])
    ++ (match r.result with
        | some v => [((.str "result" : MsgValue), v)]
        | none => [])
    ++ (match r.error with
        | some e => [((.str "error" : MsgValue), e.toValue)]
        | none => []))

/-- `rmp_serde::to_vec_named(&response)`: the response's MessagePack
bytes. -/
def encodeResponse (r : Response) : List Nat := encodeValue r.toValue

/-- The frames written for one computed response (`main.rs` lines 71-80):
serialization always succeeds on `Response`, so the task writes exactly one
frame, a 4-byte big-endian length prefix followed by the payload, under the
writer lock. -/
def emitFrames (r : Response) : List (List Nat) :=
  [be32 (encodeResponse r).length ++ encodeResponse r]

/-! ## Request deserialization (`rmp_serde::from_slice::<Request>`)

Serde's derived deserializer for `Request`, over the decoded document:
a named map (the form `to_vec_named` produces) or a positional array.
String fields accept a MessagePack str, or bin bytes that are valid UTF-8
(serde's `String` visitor implements `visit_bytes`); duplicate fields are
an error; unknown string keys are ignored; a non-string key is an error. -/

/-- Deserialize a `String` field value. -/
def strOf : MsgValue → Option String
  | .str s => some s
  | .bin b => (decodeUtf8 b).map (fun cs => String.mk cs)
  | _ => none

/-- Deserialize an untagged `RequestId`: `Number(i64)` first (an integer in
i64 range), then `String`. -/
def idOf : MsgValue → Option RequestId
  | .int n => if -(2 ^ 63 : Int) ≤ n ∧ n < 2 ^ 63 then some (.num n) else none
  | v => (strOf v).map .str

/-- Field-by-field decoding of a `Request` from map pairs, tracking seen
fields so a duplicate field is an error; at the end `version`, `id` and
`method` are required and `params` defaults to nil. -/
def reqFromPairs : List (MsgValue × MsgValue) → Option String → Option RequestId →
    Option String → Option MsgValue → Option Request
  | [], ver?, id?, meth?, par? =>
    match ver?, id?, meth? with
    | some v, some i, some m => some ⟨v, i, m, par?.getD .nil⟩
    | _, _, _ => none
  | (k, v) :: rest, ver?, id?, meth?, par? =>
    match k with
    | .str "version" =>
      if ver?.isSome then none
      else (strOf v).bind (fun s => reqFromPairs rest (some s) id? meth? par?)
    | .str "id" =>
      if id?.isSome then none
      else (idOf v).bind (fun i => reqFromPairs rest ver? (some i) meth? par?)
    | .str "method" =>
      if meth?.isSome then none
      else (strOf v).bind (fun s => reqFromPairs rest ver? id? (some s) par?)
    | .str "params" =>
      if par?.isSome then none
      else reqFromPairs rest ver? id? meth? (some v)
    | .str _ => reqFromPairs rest ver? id? meth? par?
    | _ => none

/-- Positional (array) decoding of a `Request`, with `params` defaulting
when the fourth element is absent. -/
def reqFromArr : List MsgValue → Option Request
  | [v, i, m] =>
    (strOf v).bind fun ver => (idOf i).bind fun id => (strOf m).map fun meth =>
      ⟨ver, id, meth, .nil⟩
  | [v, i, m, p] =>
    (strOf v).bind fun ver => (idOf i).bind fun id => (strOf m).map fun meth =>
      ⟨ver, id, meth, p⟩
  | _ => none

/-- `rmp_serde::from_slice::<Request>` over the decoded document. -/
def parseRequest : MsgValue → Option Request
  | .map kvs => reqFromPairs kvs none none none none
  | .arr xs => reqFromArr xs
  | _ => none

/-! ## Dispatcher (`handlers/mod.rs`)

Handler bodies perform I/O; they are abstracted as an oracle mapping a
method name and params to the handler's `Result`.  The routing table and
the envelope construction are taken literally from `dispatch` /
`dispatch_inner` / `batch_execute`. -/

/-- A handler oracle: what each leaf handler returns for given params. -/
def Handlers : Type := String → MsgValue → Except RpcError MsgValue

/-- The exact method strings of the `dispatch_inner` match arms
(`handlers/mod.rs` lines 253-309).  `"batch"` is deliberately absent: it
falls to the catch-all method-not-found arm. -/
def innerMethods : List String :=
  ["file.stat", "file.stat_batch", "file.exists", "file.readable",
   "file.writable", "file.executable", "file.truename", "file.newer_than",
   "dir.list", "dir.create", "dir.remove", "dir.completions",
   "file.read", "file.write", "file.copy", "file.rename", "file.delete",
   "file.set_modes", "file.set_times", "file.make_symlink",
   "file.make_hardlink", "file.chown",
   "process.run", "process.start", "process.write", "process.read",
   "process.close_stdin", "process.kill", "process.list",
   "process.start_pty", "process.read_pty", "process.write_pty",
   "process.resize_pty", "process.kill_pty", "process.close_pty",
   "process.list_pty",
   "system.info", "system.getenv", "system.expand_path", "system.statvfs",
   "system.groups"]

/-- `dispatch_inner`: route by method name, then wrap the handler result
as a success or error response carrying the request's id. -/
def dispatchInner (h : Handlers) (r : Request) : Response :=
  let result : Except RpcError MsgValue :=
    if r.method ∈ innerMethods then h r.method r.params
    else .error (RpcError.methodNotFound r.method)
  match result with
  | .ok v => Response.success r.id v
  | .error e => Response.mkError (some r.id) e

/-- A batch sub-request: `{ method, params }` with `params` defaulting to
null (`BatchRequest` in `batch_execute`). -/
structure BatchRequest where
  method : String
  params : MsgValue

/-- Field-by-field decoding of a `BatchRequest` from map pairs (duplicate
field is an error, unknown string keys ignored, non-string key is an
error; `method` required, `params` defaulted). -/
def batchReqFromPairs : List (MsgValue × MsgValue) → Option String → Option MsgValue →
    Option BatchRequest
  | [], meth?, par? =>
    match meth? with
    | some m => some ⟨m, par?.getD .nil⟩
    | none => none
  | (k, v) :: rest, meth?, par? =>
    match k with
    | .str "method" =>
      if meth?.isSome then none
      else (strOf v).bind (fun s => batchReqFromPairs rest (some s) par?)
    | .str "params" =>
      if par?.isSome then none
      else batchReqFromPairs rest meth? (some v)
    | .str _ => batchReqFromPairs rest meth? par?
    | _ => none

/-- Deserialize one batch sub-request (named-map or positional form). -/
def parseBatchRequest : MsgValue → Option BatchRequest
  | .map kvs => batchReqFromPairs kvs none none
  | .arr [m] => (strOf m).map fun meth => ⟨meth, .nil⟩
  | .arr [m, p] => (strOf m).map fun meth => ⟨meth, p⟩
  | _ => none

/-- Field-by-field decoding of `BatchParams` from map pairs: the required
`requests` field must be an array whose every element decodes. -/
def batchParamsFromPairs : List (MsgValue × MsgValue) →
    Option (List BatchRequest) → Option (List BatchRequest)
  | [], reqs? => reqs?
  | (k, v) :: rest, reqs? =>
    match k with
    | .str "requests" =>
      if reqs?.isSome then none
      else
        match v with
        | .arr xs => (xs.mapM parseBatchRequest).bind
            (fun reqs => batchParamsFromPairs rest (some reqs))
        | _ => none
    | .str _ => batchParamsFromPairs rest reqs?
    | _ => none

/-- Deserialize `BatchParams { requests: Vec<BatchRequest> }`. -/
def parseBatchParams : MsgValue → Option (List BatchRequest)
  | .map kvs => batchParamsFromPairs kvs none
  | .arr [MsgValue.arr xs] => xs.mapM parseBatchRequest
  | _ => none

/-- One element of the batch `results` array (`batch_execute` lines
230-240): the sub-request is wrapped into a request with a dummy id and
dispatched through `dispatch_inner` (NOT `dispatch`), and its response is
converted to `{ result }` or `{ error: { code, message } }`. -/
def batchElem (h : Handlers) (br : BatchRequest) : MsgValue :=
  let resp := dispatchInner h ⟨"2.0", .num 0, br.method, br.params⟩
  match resp.result, resp.error with
  | some r, none => mkMap [("result", r)]
  | none, some e =>
    mkMap [("error", mkMap [("code", .int e.code), ("message", .str e.message)])]
  | _, _ => mkMap [("result", .nil)]

/-- `batch_execute`: decode the params, run every sub-request through the
inner routing table (`join_all` preserves order), and return one
`{ results: [...] }` envelope. -/
def batchExecute (h : Handlers) (params : MsgValue) : Except RpcError MsgValue :=
  match parseBatchParams params with
  | none => .error (RpcError.invalidParams "invalid batch params")
  | some reqs => .ok (mkMap [("results", .arr (reqs.map (batchElem h)))])

/-- `dispatch` (`handlers/mod.rs` lines 11-23): `batch` is handled
specially, everything else goes through `dispatch_inner`. -/
def dispatch (h : Handlers) (r : Request) : Response :=
  if r.method = "batch" then
    match batchExecute h r.params with
    | .ok v => Response.success r.id v
    | .error e => Response.mkError (some r.id) e
  else dispatchInner h r

/-- `process_request` (`main.rs` lines 88-107) over the payload's decoded
document (`none` when the payload is not well-formed MessagePack; the
message text of `e.to_string()` is abstracted to a fixed string): decode
failure yields a parse-error response with null id; a version other than
"2.0" yields an invalid-request response echoing the id; otherwise the
request is dispatched. -/
def processRequest (h : Handlers) (payloadDoc : Option MsgValue) : Response :=
  match payloadDoc.bind parseRequest with
  | none => Response.mkError none (RpcError.parseError "parse error")
  | some req =>
    if req.version ≠ "2.0" then
      Response.mkError (some req.id) (RpcError.invalidRequest "Invalid RPC version")
    else dispatch h req

/-! ## The inbound read loop (`main.rs` lines 43-82)

The loop repeatedly reads a 4-byte big-endian length and then that many
payload bytes; EOF mid-read terminates the loop.  A length above 100 MiB
hits `continue` WITHOUT reading the payload bytes.  The recursion is
written with a fuel argument (every iteration consumes at least 4 bytes,
so `length + 1` fuel always suffices) to keep the definition reducible. -/

/-- Big-endian value of a byte list (`u32::from_be_bytes` for 4 bytes). -/
def beNat (bs : List Nat) : Nat := bs.foldl (fun a b => a * 0x100 + b) 0

/-- The 100 MiB limit `100 * 1024 * 1024`. -/
def maxFrameLen : Nat := 100 * 1024 * 1024

/-- One pass of the inbound loop as written (`continue` on an oversize
length does not consume the payload). -/
def readFramesAux : Nat → List Nat → List (List Nat)
  | 0, _ => []
  | fuel + 1, stream =>
    if stream.length < 4 then []
    else
      let len := beNat (stream.take 4)
      let rest := stream.drop 4
      if maxFrameLen < len then readFramesAux fuel rest
      else if rest.length < len then []
      else rest.take len :: readFramesAux fuel (rest.drop len)

/-- The payloads accepted by the read loop of `main.rs`. -/
def readFrames (stream : List Nat) : List (List Nat) :=
  readFramesAux (stream.length + 1) stream

/-- Modelled from the spec: the read loop as the specification describes
it — an oversize frame's length is read, "the bytes drained, and the
connection continues"; EOF while draining terminates the loop.  This is
the comparison point for the oversize-frame claim; it differs from
`readFramesAux` only in the oversize branch. -/
def readFramesDrainAux : Nat → List Nat → List (List Nat)
  | 0, _ => []
  | fuel + 1, stream =>
    if stream.length < 4 then []
    else
      let len := beNat (stream.take 4)
      let rest := stream.drop 4
      if maxFrameLen < len then
        if rest.length < len then []
        else readFramesDrainAux fuel (rest.drop len)
      else if rest.length < len then []
      else rest.take len :: readFramesDrainAux fuel (rest.drop len)

/-- The payloads accepted under the spec's drain-and-continue reading. -/
def readFramesDrain (stream : List Nat) : List (List Nat) :=
  readFramesDrainAux (stream.length + 1) stream

/-- The per-frame responses of the server: one `process_request` per
accepted frame.  `decodeDoc` is the oracle for the byte-level MessagePack
parse of a payload. -/
def serverResponses (h : Handlers) (decodeDoc : List Nat → Option MsgValue)
    (stream : List Nat) : List Response :=
  (readFrames stream).map (fun payload => processRequest h (decodeDoc payload))

/-! ## Pipe-backed process supervisor (`handlers/process.rs`)

The `std::process::ExitStatus` of a reaped child: `code()` is the natural
exit code, and is `None` when the child was terminated by a signal. -/

/-- A child's final status: natural exit code, or death by signal. -/
inductive ExitStatus where
  | exited (code : Int) : ExitStatus
  | signaled (signal : Int) : ExitStatus
deriving DecidableEq

/-- `ExitStatus::code()`: `Some` natural code, `None` for a signal death. -/
def ExitStatus.codeOf : ExitStatus → Option Int
  | .exited c => some c
  | .signaled _ => none

/-- The `exit_code` field computed by `process.run` (`process.rs` line
149): `output.status.code().unwrap_or(-1)`. -/
def runExitCode (status : ExitStatus) : Int := status.codeOf.getD (-1)

/-- The `(exited, exit_code)` fields computed by `process.read`
(`process.rs` lines 319-320) from `try_wait`'s result:
`exit_status.is_some()` and `exit_status.and_then(|s| s.code())`. -/
def readExitFields (status : Option ExitStatus) : Bool × Option Int :=
  (status.isSome, status.bind ExitStatus.codeOf)

/-- The result record built by `process.run` (`process.rs` lines 144-154):
the exit code together with the smart-encoded stdout and stderr pairs of
`ProcessResult`. -/
def runResultFields (status : ExitStatus) (stdout stderr : List Nat) :
    Int × (String × OutputEncoding) × (String × OutputEncoding) :=
  (runExitCode status, smart_encode stdout, smart_encode stderr)

/-- A managed pipe-backed child as `process.write` / `process.close_stdin`
see it: whether `child.stdin` is still `Some`, and the command string. -/
structure PipeEntry where
  stdinOpen : Bool
  cmd : String
deriving DecidableEq

/-- Association-list lookup standing for the `HashMap` keyed process
table. -/
def lookupEntry (tbl : List (Nat × PipeEntry)) (key : Nat) : Option PipeEntry :=
  (tbl.find? (fun kv => kv.1 = key)).map (·.2)

/-- `process.write` (`process.rs` lines 223-256) after base64 decoding of
its `data` param: unknown key is a process error; when stdin is still open
the write is attempted (`writeOk` is the oracle for `write_all`, a failure
is a process error); when stdin has been closed the `if let Some` is
skipped entirely and the handler still replies `{ written: data.len() }`. -/
def processWrite (tbl : List (Nat × PipeEntry)) (key : Nat) (data : List Nat)
    (writeOk : Bool) : Except RpcError MsgValue :=
  match lookupEntry tbl key with
  | none => .error (RpcError.processError ("Process not found: " ++ toString key))
  | some p =>
    if p.stdinOpen then
      if writeOk then .ok (mkMap [("written", .int data.length)])
      else .error (RpcError.processError "Failed to write to stdin")
    else .ok (mkMap [("written", .int data.length)])

/-- `process.close_stdin` (`process.rs` lines 345-365): unknown key is a
process error; otherwise `child.stdin.take()` drops the handle (the entry
stays, with stdin gone) and the reply is `true`. -/
def processCloseStdin (tbl : List (Nat × PipeEntry)) (key : Nat) :
    List (Nat × PipeEntry) × Except RpcError MsgValue :=
  match lookupEntry tbl key with
  | none =>
    (tbl, .error (RpcError.processError ("Process not found: " ++ toString key)))
  | some _ =>
    (tbl.map (fun kv => if kv.1 = key then (kv.1, ⟨false, kv.2.cmd⟩) else kv),
     .ok (.bool true))

/-! ## PTY-backed process supervisor (`handlers/process.rs`) -/

/-- A managed PTY child as the exit-harvest code sees it: the child pid,
the command, and the cached exit status. -/
structure PtyEntry where
  child_pid : Int
  cmd : String
  exit_status : Option Int
deriving DecidableEq

/-- The outcome of one `waitpid(child, WNOHANG)` call, the OS oracle of
the exit harvest. -/
inductive WaitRes where
  | exited (code : Int) : WaitRes
  | signaled (signal : Int) : WaitRes
  | stillAlive : WaitRes
  | errorOrOther : WaitRes
deriving DecidableEq

/-- `check_exit_status` (`process.rs` lines 910-928): a cached status is
returned without consulting the OS; otherwise one non-blocking `waitpid`
is made and a natural exit caches its code, a signal death caches
`128 + signal`, and anything else reports not-exited. -/
def checkExitStatus (e : PtyEntry) (w : WaitRes) : PtyEntry × Bool × Option Int :=
  match e.exit_status with
  | some c => (e, true, some c)
  | none =>
    match w with
    | .exited c => ({ e with exit_status := some c }, true, some c)
    | .signaled s => ({ e with exit_status := some (128 + s) }, true, some (128 + s))
    | .stillAlive => (e, false, none)
    | .errorOrOther => (e, false, none)

/-- The per-entry exit harvest inlined in `list_pty` (`process.rs` lines
1113-1128), byte-for-byte the same logic as `check_exit_status`. -/
def listPtyHarvest (e : PtyEntry) (w : WaitRes) : PtyEntry × Bool × Option Int :=
  match e.exit_status with
  | some c => (e, true, some c)
  | none =>
    match w with
    | .exited c => ({ e with exit_status := some c }, true, some c)
    | .signaled s => ({ e with exit_status := some (128 + s) }, true, some (128 + s))
    | _ => (e, false, none)

/-! ## Filesystem watcher (`watcher.rs`) -/

/-- The kind classification of a raw `notify` event. -/
inductive EvKind where
  | create : EvKind
  | modify : EvKind
  | remove : EvKind
  | access : EvKind
  | other : EvKind
deriving DecidableEq

/-- A raw filesystem event: its kind and the affected paths (paths are
component lists, mirroring `PathBuf`). -/
structure FsEvent where
  kind : EvKind
  paths : List (List String)
deriving DecidableEq

/-- Whether the watcher callback forwards this kind
(`EventKind::Create | Modify | Remove`, `watcher.rs` lines 71-77). -/
def isMutationKind : EvKind → Bool
  | .create => true
  | .modify => true
  | .remove => true
  | .access => false
  | .other => false

/-- The watcher callback's effect on the channel contents (`watcher.rs`
lines 67-82): the channel is created by `mpsc::unbounded_channel()`, so a
forwarded event is always appended; error results and non-mutation kinds
are dropped. -/
def watcherForward (queue : List FsEvent) (res : Except Unit FsEvent) : List FsEvent :=
  match res with
  | .ok ev => if isMutationKind ev.kind then queue ++ [ev] else queue
  | .error _ => queue

/-- Reachable channel contents: starting empty, any interleaving of
callback pushes and debounce-task pops. -/
inductive ChanState : List FsEvent → Prop where
  | init : ChanState []
  | send {q : List FsEvent} (res : Except Unit FsEvent) :
      ChanState q → ChanState (watcherForward q res)
  | recv {q : List FsEvent} (e : FsEvent) :
      ChanState (e :: q) → ChanState q

/-- The outcome of one debounce-loop iteration: what was printed to
standard error, and whether the loop keeps running. -/
structure DebounceOut where
  stderrLines : List String
  keepRunning : Bool
deriving DecidableEq

/-- One iteration of `debounce_loop` (`watcher.rs` lines 177-219) given
the first event, the events drawn during the 200 ms window, and the
outcome of the sink write (`sinkOk`): the paths are collected into a set
(modelled as a deduplicated list; only emptiness matters downstream); a
nonempty set is flushed, and a failed flush prints
`eprintln!("Failed to send fs.changed notification: ...")` and breaks. -/
def debounceIter (first : FsEvent) (window : List FsEvent) (sinkOk : Bool) :
    DebounceOut :=
  let pending := (first.paths ++ (window.map FsEvent.paths).flatten).eraseDups
  if pending.isEmpty then ⟨[], true⟩
  else if sinkOk then ⟨[], true⟩
  else ⟨["Failed to send fs.changed notification"], false⟩

/-- `Path::ends_with` on component lists: `a.ends_with(b)` holds when
`b`'s components are a suffix of `a`'s. -/
def pathEndsWith (a b : List String) : Bool := b.isSuffixOf a

/-- The fallback match of `unwatch` (`watcher.rs` line 140):
`stored.ends_with(path) || path.ends_with(stored)`. -/
def suffixRel (stored path : List String) : Bool :=
  pathEndsWith stored path || pathEndsWith path stored

/-- The registry's `paths.contains_key(..)` over the association-list
model of the `HashMap`. -/
def regContains (reg : List (List String × Bool)) (p : List String) : Bool :=
  (reg.find? (fun kv => kv.1 == p)).isSome

/-- `WatchManager::unwatch` (`watcher.rs` lines 123-156).  `canonRes` is
the oracle for `path.canonicalize()` (`none` when canonicalization fails,
in which case the raw path is used); `osOk` is the oracle for the OS
watcher's `unwatch` call.  The stored path is the exact canonical match
when present, otherwise the first registry key in suffix relation with the
RAW path; no match is an error; an OS unwatch failure propagates before
the registry is touched. -/
def unwatch (canonRes : Option (List String)) (path : List String)
    (reg : List (List String × Bool)) (osOk : List String → Bool) :
    Except String (List (List String × Bool)) :=
  let canonical := canonRes.getD path
  let stored? : Option (List String) :=
    if regContains reg canonical then some canonical
    else (reg.find? (fun kv => suffixRel kv.1 path)).map (·.1)
  match stored? with
  | none => .error "Path not being watched"
  | some st =>
    if osOk st then .ok (reg.eraseP (fun kv => kv.1 == st))
    else .error "Failed to unwatch under the OS watcher"

/-! ## Concrete inputs used by witnesses and counterexamples -/

/-- A one-entry pipe process table whose child still has stdin open. -/
def pipeTable0 : List (Nat × PipeEntry) := [(1, ⟨true, "cat"⟩)]

/-- A trivial handler oracle: every routed method succeeds with nil. -/
def okHandlers : Handlers := fun _ _ => .ok .nil

/-- A concrete `batch` request with two sub-requests, the second of which
is itself `batch`. -/
def batchReq0 : Request :=
  ⟨"2.0", .num 1, "batch",
   mkMap [("requests", .arr [mkMap [("method", .str "file.exists")],
                             mkMap [("method", .str "batch")]])]⟩

/-- The decoded sub-requests of `batchReq0`. -/
def batchReqs0 : List BatchRequest := [⟨"file.exists", .nil⟩, ⟨"batch", .nil⟩]

/-! ## Helper lemmas -/

/-- Both branches of `dispatch` build the response with `Some(request.id)`
(`Response::success` / `Response::error` in `dispatch` and
`dispatch_inner`). -/
theorem dispatch_id (h : Handlers) (r : Request) : (dispatch h r).id = some r.id := by
  unfold dispatch
  by_cases hb : r.method = "batch"
  · simp only [hb, if_pos rfl]
    cases batchExecute h r.params <;> rfl
  · simp only [if_neg hb]
    unfold dispatchInner
    cases hres : (if r.method ∈ innerMethods then h r.method r.params
        else Except.error (RpcError.methodNotFound r.method)) <;> rfl

/-- `b64val` inverts `b64char` on sextets. -/
theorem b64val_b64char : ∀ s : Nat, s < 64 → b64val (b64char s) = s := by decide

/-- No alphabet character is the padding character. -/
theorem b64char_ne_pad : ∀ s : Nat, s < 64 → b64char s ≠ '=' := by decide

/-- Base64 round-trip: decoding an encoded byte list recovers the bytes. -/
theorem b64_roundtrip : ∀ (data : List Nat), (∀ b ∈ data, b < 256) →
    b64decodeChars (base64Chars data) = data := by
  intro data
  induction data using base64Chars.induct with
  | case1 => intro _; rfl
  | case2 a =>
    intro hb
    have ha : a < 256 := hb a (by simp)
    have h1 : a / 4 < 64 := by omega
    have h2 : a % 4 * 16 < 64 := by omega
    simp only [base64Chars, b64decodeChars, if_true, eq_self_iff_true,
      b64val_b64char _ h1, b64val_b64char _ h2, List.cons.injEq, and_true]
    omega
  | case3 a b =>
    intro hb
    have ha : a < 256 := hb a (by simp)
    have hbb : b < 256 := hb b (by simp)
    have h1 : a / 4 < 64 := by omega
    have h2 : a % 4 * 16 + b / 16 < 64 := by omega
    have h3 : b % 16 * 4 < 64 := by omega
    simp only [base64Chars, b64decodeChars, if_neg (b64char_ne_pad _ h3),
      if_true, eq_self_iff_true,
      b64val_b64char _ h1, b64val_b64char _ h2, b64val_b64char _ h3,
      List.cons.injEq, and_true]
    constructor <;> omega
  | case4 a b c rest ih =>
    intro hb
    have ha : a < 256 := hb a (by simp)
    have hbb : b < 256 := hb b (by simp)
    have hc : c < 256 := hb c (by simp)
    have h1 : a / 4 < 64 := by omega
    have h2 : a % 4 * 16 + b / 16 < 64 := by omega
    have h3 : b % 16 * 4 + c / 64 < 64 := by omega
    have h4 : c % 64 < 64 := by omega
    have hrest : ∀ x ∈ rest, x < 256 := fun x hx => hb x (by simp [hx])
    simp only [base64Chars, b64decodeChars, if_neg (b64char_ne_pad _ h3),
      if_neg (b64char_ne_pad _ h4),
      b64val_b64char _ h1, b64val_b64char _ h2, b64val_b64char _ h3,
      b64val_b64char _ h4, ih hrest, List.cons.injEq]
    refine ⟨by omega, by omega, by omega, trivial⟩

/-- A key the registry contains occurs among the registry keys. -/
theorem regContains_mem (reg : List (List String × Bool)) (a : List String)
    (h : regContains reg a = true) : a ∈ reg.map Prod.fst := by
  unfold regContains at h
  cases hf : reg.find? (fun kv => kv.1 == a) with
  | none => rw [hf] at h; simp at h
  | some kv =>
    have hm := List.mem_of_find?_eq_some hf
    have hp := List.find?_some hf
    rw [beq_iff_eq] at hp
    exact List.mem_map.mpr ⟨kv, hm, hp⟩

/-- Any channel contents of the form `replicate n ev`, for a forwarded
event kind, is reachable. -/
theorem chanState_replicate (ev : FsEvent) (hk : isMutationKind ev.kind = true) :
    ∀ n, ChanState (List.replicate n ev) := by
  intro n
  induction n with
  | zero => exact .init
  | succ n ih =>
    have h := ChanState.send (q := List.replicate n ev) (.ok ev) ih
    rw [watcherForward, if_pos hk] at h
    rw [List.replicate_succ']
    exact h

/-! ## Claim theorems -/

/-- C2 (code bug): on the stream consisting of the header `[6,64,0,1]`
(length 104 857 601 > 100 MiB) followed by four zero bytes, the read loop
as written does NOT drain the oversize payload: it re-reads the first four
payload bytes as a fresh length prefix and accepts an empty frame, while
the spec's drain-and-continue reading accepts nothing (EOF while
draining). -/
theorem oversize_frame_not_drained :
    beNat [6, 64, 0, 1] = 104857601
    ∧ maxFrameLen < 104857601
    ∧ readFrames [6, 64, 0, 1, 0, 0, 0, 0] = [[]]
    ∧ readFramesDrain [6, 64, 0, 1, 0, 0, 0, 0] = [] :=
  ⟨by decide, by decide, by decide, by decide⟩

/-- C3 counterexample: `process.run` reports exit code `-1`, not
`128 + 9 = 137`, for a child killed by SIGKILL
(`output.status.code().unwrap_or(-1)`), and `process.read` reports
`exited = true` with a nil `exit_code` for a signal death. -/
theorem pipe_signal_exitcode_cex :
    runExitCode (.signaled 9) = -1
    ∧ runExitCode (.signaled 9) ≠ 128 + 9
    ∧ readExitFields (some (.signaled 9)) = (true, none)
    ∧ (runResultFields (.signaled 9) [] []).1 = -1 :=
  ⟨rfl, by decide, rfl, rfl⟩

/-- C3 amended: for the pipe-backed supervisor, `process.run` returns the
natural exit code when present and `-1` otherwise — including signal
deaths, which do NOT get `128 + signal` — and `process.read` reports a
signal-terminated child as `exited = true` with a nil `exit_code`. -/
theorem pipe_exitcode_amended (s c : Int) :
    runExitCode (.signaled s) = -1
    ∧ runExitCode (.exited c) = c
    ∧ readExitFields (some (.signaled s)) = (true, none)
    ∧ readExitFields (some (.exited c)) = (true, some c)
    ∧ readExitFields none = (false, none) :=
  ⟨rfl, rfl, rfl, rfl, rfl⟩

/-- C5 counterexample: the byte `0xFF` is not valid UTF-8, so
`smart_encode` carries it as the base64 TEXT `"/w=="` with a base64 tag —
in particular `process.run`'s stdout field for output `[0xFF]` is
base64-encoded text, not raw binary. -/
theorem smart_encode_base64_cex :
    (smart_encode [255]).2 = OutputEncoding.base64
    ∧ (smart_encode [255]).1 = "/w=="
    ∧ (runResultFields (.exited 0) [255] []).2.1 = ("/w==", OutputEncoding.base64) :=
  ⟨rfl, rfl, rfl⟩

/-- C5 amended: byte payloads of the process handlers are carried as raw
text when they are valid UTF-8 and otherwise as base64-encoded text with a
base64 tag (never as raw binary); the base64 branch is lossless — decoding
the carried string recovers exactly the original bytes. -/
theorem smart_encode_amended (data : List Nat) (hb : ∀ b ∈ data, b < 256) :
    ((smart_encode data).2 = OutputEncoding.base64 ↔ decodeUtf8 data = none)
    ∧ ((smart_encode data).2 = OutputEncoding.base64 →
        b64decodeChars (smart_encode data).1.toList = data) := by
  unfold smart_encode
  cases hd : decodeUtf8 data with
  | some cs => simp
  | none =>
    refine ⟨by simp, fun _ => ?_⟩
    show b64decodeChars (String.mk (base64Chars data)).toList = data
    have : (String.mk (base64Chars data)).toList = base64Chars data := rfl
    rw [this]
    exact b64_roundtrip data hb

/-- C5 amended, witness: at the concrete non-UTF-8 payload `[0xFF]` the
conclusion holds with the hypotheses discharged. -/
theorem smart_encode_amended_witness :
    ((smart_encode [255]).2 = OutputEncoding.base64 ↔ decodeUtf8 [255] = none)
    ∧ ((smart_encode [255]).2 = OutputEncoding.base64 →
        b64decodeChars (smart_encode [255]).1.toList = [255]) :=
  smart_encode_amended [255] (by decide)

/-- C6 (code bug): when the debounce window has pending paths and the sink
write fails, the loop does stop, but — contrary to the spec and to the
repository's own `main.rs` comment forbidding `eprintln!` anywhere in the
server — it first prints a diagnostic line to standard error. -/
theorem debounce_send_failure_logs_stderr :
    debounceIter ⟨.modify, [["tmp", "f"]]⟩ [] false
      = ⟨["Failed to send fs.changed notification"], false⟩
    ∧ (debounceIter ⟨.modify, [["tmp", "f"]]⟩ [] false).stderrLines ≠ []
    ∧ (debounceIter ⟨.modify, [["tmp", "f"]]⟩ [] false).keepRunning = false :=
  ⟨rfl, by decide, rfl⟩

/-- C7 counterexample: the channel is created with
`mpsc::unbounded_channel()`; from the empty channel, 10 001 forwarded
create events are a reachable channel content — a state with more than
10 000 pending events — and at 10 000 pending events a new event is still
appended, not dropped. -/
theorem channel_unbounded_cex :
    ChanState (List.replicate 10001 ⟨EvKind.create, []⟩)
    ∧ 10000 < (List.replicate 10001 (⟨EvKind.create, []⟩ : FsEvent)).length
    ∧ watcherForward (List.replicate 10000 ⟨EvKind.create, []⟩)
        (.ok ⟨EvKind.create, []⟩)
      = List.replicate 10000 ⟨EvKind.create, []⟩ ++ [⟨EvKind.create, []⟩] := by
  refine ⟨chanState_replicate ⟨EvKind.create, []⟩ rfl 10001, ?_, ?_⟩
  · rw [List.length_replicate]
    omega
  · rw [watcherForward,
      if_pos (show isMutationKind (⟨EvKind.create, []⟩ : FsEvent).kind = true from rfl)]

/-- C7 amended: raw create/modify/remove events are pushed into an
UNBOUNDED channel — every forwarded event is appended regardless of how
many are pending, access/other events and error results are dropped by the
kind filter, and the pending count can reach any size. -/
theorem channel_unbounded_amended :
    (∀ n : Nat, ∃ q, ChanState q ∧ q.length = n)
    ∧ (∀ (q : List FsEvent) (ev : FsEvent), isMutationKind ev.kind = true →
        watcherForward q (.ok ev) = q ++ [ev])
    ∧ (∀ (q : List FsEvent) (ev : FsEvent), isMutationKind ev.kind = false →
        watcherForward q (.ok ev) = q)
    ∧ (∀ q : List FsEvent, watcherForward q (.error ()) = q) := by
  refine ⟨fun n => ⟨List.replicate n ⟨EvKind.create, []⟩,
      chanState_replicate ⟨EvKind.create, []⟩ rfl n, List.length_replicate n _⟩,
      ?_, ?_, fun q => rfl⟩
  · intro q ev hk
    rw [watcherForward, if_pos hk]
  · intro q ev hk
    rw [watcherForward, if_neg (by simp [hk])]

/-- C7 amended, witness: instantiated at length 3, a create event on the
empty channel, and an access event on the empty channel. -/
theorem channel_unbounded_amended_witness :
    (∃ q, ChanState q ∧ q.length = 3)
    ∧ watcherForward [] (.ok ⟨EvKind.create, []⟩) = [⟨EvKind.create, []⟩]
    ∧ watcherForward [] (.ok ⟨EvKind.access, []⟩) = [] :=
  ⟨channel_unbounded_amended.1 3,
   channel_unbounded_amended.2.1 [] _ rfl,
   channel_unbounded_amended.2.2.1 [] _ rfl⟩

/-- C1: for every stream, exactly one response is computed per frame
accepted by the read loop, and each computed response is written as
exactly one output frame; the response content is classified by the
decode outcome — decode failure gives a parse error (-32700) with null
id, a decoded request with version ≠ "2.0" gives an invalid-request
error (-32600) echoing the id, and otherwise the dispatch result, which
always carries the request's id. -/
theorem frame_response_unique_and_classified (h : Handlers)
    (decodeDoc : List Nat → Option MsgValue) (stream : List Nat) :
    (serverResponses h decodeDoc stream).length = (readFrames stream).length
    ∧ ∀ d : Option MsgValue,
        (emitFrames (processRequest h d)).length = 1
        ∧ (match d.bind parseRequest with
           | none => (processRequest h d).id = none
               ∧ ∃ e, (processRequest h d).error = some e ∧ e.code = -32700
           | some req =>
               if req.version = "2.0" then
                 processRequest h d = dispatch h req
                   ∧ (dispatch h req).id = some req.id
               else
                 (processRequest h d).id = some req.id
                   ∧ ∃ e, (processRequest h d).error = some e ∧ e.code = -32600) := by
  refine ⟨by simp [serverResponses], fun d => ⟨rfl, ?_⟩⟩
  unfold processRequest
  cases hd : d.bind parseRequest with
  | none => exact ⟨rfl, ⟨RpcError.parseError "parse error", rfl, rfl⟩⟩
  | some req =>
    dsimp only
    by_cases hv : req.version = "2.0"
    · rw [if_pos hv, if_neg (by simp [hv])]
      exact ⟨rfl, dispatch_id h req⟩
    · rw [if_neg hv, if_pos hv]
      exact ⟨rfl, ⟨RpcError.invalidRequest "Invalid RPC version", rfl, rfl⟩⟩

/-- C4: a `batch` request whose params decode to `n` sub-requests yields
one success envelope whose `results` array has exactly `n` elements in
order, each `{ result }` or `{ error: { code, message } }`; a sub-request
named `batch` goes through the inner routing table and yields a
method-not-found (-32601) error element rather than recursing. -/
theorem batch_results_shape (h : Handlers) (r : Request) (reqs : List BatchRequest)
    (hm : r.method = "batch") (hp : parseBatchParams r.params = some reqs) :
    dispatch h r
      = Response.success r.id (mkMap [("results", .arr (reqs.map (batchElem h)))])
    ∧ (reqs.map (batchElem h)).length = reqs.length
    ∧ (∀ br ∈ reqs, (∃ v, batchElem h br = mkMap [("result", v)])
        ∨ (∃ c m, batchElem h br
            = mkMap [("error", mkMap [("code", .int c), ("message", .str m)])]))
    ∧ (∀ br ∈ reqs, br.method = "batch" →
        batchElem h br
          = mkMap [("error", mkMap [("code", .int (-32601)),
              ("message", .str "Method not found: batch")])]) := by
  refine ⟨?_, by simp, ?_, ?_⟩
  · unfold dispatch batchExecute
    rw [if_pos hm, hp]
  · intro br _
    unfold batchElem dispatchInner
    cases hres : (if br.method ∈ innerMethods then h br.method br.params
        else Except.error (RpcError.methodNotFound br.method)) with
    | ok v => exact Or.inl ⟨v, rfl⟩
    | error e => exact Or.inr ⟨e.code, e.message, rfl⟩
  · intro br _ hbatch
    obtain ⟨meth, bparams⟩ := br
    have hb : meth = "batch" := hbatch
    subst hb
    unfold batchElem dispatchInner
    dsimp only
    rw [if_neg (show ("batch" : String) ∉ innerMethods by decide)]
    rfl

/-- C4 witness: the concrete batch request `batchReq0` (whose second
sub-request is itself `batch`) under the trivial handler oracle. -/
theorem batch_results_shape_witness :
    dispatch okHandlers batchReq0
      = Response.success (.num 1)
          (mkMap [("results", .arr (batchReqs0.map (batchElem okHandlers)))])
    ∧ batchElem okHandlers ⟨"batch", .nil⟩
      = mkMap [("error", mkMap [("code", .int (-32601)),
          ("message", .str "Method not found: batch")])] :=
  ⟨(batch_results_shape okHandlers batchReq0 batchReqs0 rfl rfl).1,
   (batch_results_shape okHandlers batchReq0 batchReqs0 rfl rfl).2.2.2
     ⟨"batch", .nil⟩ (by simp [batchReqs0]) rfl⟩

/-- C8 counterexample: with a registry containing only `a/b`, removing
the path `b` (whose canonicalization fails, so the raw path is used) is
NOT an exact registry match, yet `unwatch` succeeds through the
suffix-relation fallback and removes `a/b` from the registry. -/
theorem unwatch_suffix_fallback_cex :
    regContains [(["a", "b"], true)] ["b"] = false
    ∧ unwatch none ["b"] [(["a", "b"], true)] (fun _ => true) = .ok [] :=
  ⟨rfl, rfl⟩

/-- C8 amended: `watch.remove` canonicalizes (falling back to the raw
path); it succeeds when the canonical path is an exact registry key OR,
failing that, when some registry key and the raw path are in a
component-suffix relation (either direction); on success the matched
stored key is unregistered under the OS watcher and removed from the
registry, and when neither match exists the call fails (leaving the
registry unchanged). -/
theorem unwatch_amended (canonRes : Option (List String)) (path : List String)
    (reg : List (List String × Bool)) (osOk : List String → Bool) :
    (∀ reg2, unwatch canonRes path reg osOk = .ok reg2 →
       ∃ st, st ∈ reg.map Prod.fst
         ∧ (st = canonRes.getD path ∨ suffixRel st path = true)
         ∧ osOk st = true
         ∧ reg2 = reg.eraseP (fun kv => kv.1 == st))
    ∧ (regContains reg (canonRes.getD path) = false →
       reg.find? (fun kv => suffixRel kv.1 path) = none →
       ∀ reg2, unwatch canonRes path reg osOk ≠ .ok reg2) := by
  constructor
  · intro reg2 hok
    simp only [unwatch] at hok
    by_cases hc : regContains reg (canonRes.getD path) = true
    · rw [if_pos hc] at hok
      dsimp only at hok
      by_cases ho : osOk (canonRes.getD path) = true
      · rw [if_pos ho] at hok
        exact ⟨canonRes.getD path, regContains_mem _ _ hc, Or.inl rfl, ho,
          (Except.ok.inj hok).symm⟩
      · rw [if_neg ho] at hok
        exact absurd hok (by simp)
    · rw [if_neg hc] at hok
      cases hf : reg.find? (fun kv => suffixRel kv.1 path) with
      | none =>
        rw [hf] at hok
        simp at hok
      | some kv =>
        rw [hf] at hok
        simp only [Option.map_some'] at hok
        by_cases ho : osOk kv.1 = true
        · rw [if_pos ho] at hok
          exact ⟨kv.1,
            List.mem_map.mpr ⟨kv, List.mem_of_find?_eq_some hf, rfl⟩,
            Or.inr (by simpa using List.find?_some hf), ho, (Except.ok.inj hok).symm⟩
        · rw [if_neg ho] at hok
          exact absurd hok (by simp)
  · intro h1 h2 reg2 hok
    simp only [unwatch] at hok
    rw [if_neg (by rw [h1]; exact Bool.false_ne_true), h2] at hok
    simp at hok

/-- C8 amended, witness: the fallback-success conclusion at the concrete
registry `[ (a/b, true) ]` with raw path `b`, and the no-match failure on
the empty registry. -/
theorem unwatch_amended_witness :
    (∃ st, st ∈ ([(["a", "b"], true)] : List (List String × Bool)).map Prod.fst
      ∧ (st = (none : Option (List String)).getD ["b"] ∨ suffixRel st ["b"] = true)
      ∧ (fun (_ : List String) => true) st = true
      ∧ ([] : List (List String × Bool))
          = [(["a", "b"], true)].eraseP (fun kv => kv.1 == st))
    ∧ unwatch (some ["z"]) ["z"] [] (fun _ => true) ≠ .ok [] :=
  ⟨(unwatch_amended none ["b"] [(["a", "b"], true)] (fun _ => true)).1 [] rfl,
   (unwatch_amended (some ["z"]) ["z"] [] (fun _ => true)).2 rfl rfl []⟩

/-- C9 counterexample: after `process.close_stdin` on key 1, a
`process.write` to key 1 succeeds with `{ written: 2 }` — even under a
write oracle that would fail — because the `if let Some(stdin)` body is
skipped entirely; no process error (-32004) is produced. -/
theorem write_closed_stdin_cex :
    (processCloseStdin pipeTable0 1).2 = .ok (.bool true)
    ∧ (processCloseStdin pipeTable0 1).1 = [(1, ⟨false, "cat"⟩)]
    ∧ processWrite (processCloseStdin pipeTable0 1).1 1 [104, 105] false
      = .ok (mkMap [("written", .int 2)]) :=
  ⟨rfl, rfl, rfl⟩

/-- C9 amended: a `process.write` to a managed key whose stdin has been
closed by a prior `process.close_stdin` returns a SUCCESS result
`{ written: data.len() }` without writing anything (the data is silently
discarded); the -32004 process error arises only for an unknown key or a
failed write on an open stdin. -/
theorem write_closed_stdin_amended :
    (∀ (tbl : List (Nat × PipeEntry)) (key : Nat) (p : PipeEntry)
       (data : List Nat) (writeOk : Bool),
       lookupEntry tbl key = some p → p.stdinOpen = false →
       processWrite tbl key data writeOk = .ok (mkMap [("written", .int data.length)]))
    ∧ (∀ (tbl : List (Nat × PipeEntry)) (key : Nat) (p : PipeEntry),
       lookupEntry tbl key = some p →
       lookupEntry (processCloseStdin tbl key).1 key = some ⟨false, p.cmd⟩)
    ∧ (∀ (tbl : List (Nat × PipeEntry)) (key : Nat) (data : List Nat)
       (writeOk : Bool),
       lookupEntry tbl key = none →
       processWrite tbl key data writeOk
         = .error (RpcError.processError ("Process not found: " ++ toString key)))
    := by
  refine ⟨?_, ?_, ?_⟩
  · intro tbl key p data writeOk hl hs
    unfold processWrite
    rw [hl]
    simp [hs]
  · intro tbl key p hl
    unfold processCloseStdin
    rw [hl]
    simp only
    unfold lookupEntry at hl ⊢
    induction tbl with
    | nil => simp at hl
    | cons kv rest ih =>
      obtain ⟨k, q⟩ := kv
      by_cases hk : k = key
      · subst hk
        rw [List.find?_cons_of_pos _ (by simp)] at hl
        have hq : q = p := by simpa using hl
        rw [List.map_cons, if_pos rfl, List.find?_cons_of_pos _ (by simp)]
        simp [hq]
      · rw [List.find?_cons_of_neg _ (by simpa using hk)] at hl
        rw [List.map_cons, if_neg hk, List.find?_cons_of_neg _ (by simpa using hk)]
        exact ih hl
  · intro tbl key data writeOk hl
    unfold processWrite
    rw [hl]

/-- C9 amended, witness: instantiated on the one-entry table after closing
stdin, and on the empty table for the unknown-key error. -/
theorem write_closed_stdin_amended_witness :
    processWrite [(1, (⟨false, "cat"⟩ : PipeEntry))] 1 [104, 105] true
      = .ok (mkMap [("written", .int 2)])
    ∧ lookupEntry (processCloseStdin pipeTable0 1).1 1 = some ⟨false, "cat"⟩
    ∧ processWrite [] 2 [] true
      = .error (RpcError.processError ("Process not found: " ++ toString 2)) :=
  ⟨write_closed_stdin_amended.1 _ 1 ⟨false, "cat"⟩ [104, 105] true rfl rfl,
   write_closed_stdin_amended.2.1 pipeTable0 1 ⟨true, "cat"⟩ rfl,
   write_closed_stdin_amended.2.2 [] 2 [] true rfl⟩

/-- C10: once a PTY entry's exit has been reported (`exited = true` with
code `c`) by either `check_exit_status` (used by `process.read_pty`) or
the inlined harvest of `process.list_pty`, the status is cached in the
entry, and every later harvest on that entry — under ANY subsequent
`waitpid` oracle outcome, i.e. without re-querying the OS — reports the
same `exited = true` with the same code and leaves the entry unchanged. -/
theorem pty_exit_status_cached :
    (∀ (e : PtyEntry) (w : WaitRes) (e2 : PtyEntry) (c : Int),
       checkExitStatus e w = (e2, true, some c) →
       e2.exit_status = some c
       ∧ ∀ w2, checkExitStatus e2 w2 = (e2, true, some c)
         ∧ listPtyHarvest e2 w2 = (e2, true, some c))
    ∧ (∀ (e : PtyEntry) (w : WaitRes) (e2 : PtyEntry) (c : Int),
       listPtyHarvest e w = (e2, true, some c) →
       e2.exit_status = some c
       ∧ ∀ w2, checkExitStatus e2 w2 = (e2, true, some c)
         ∧ listPtyHarvest e2 w2 = (e2, true, some c)) := by
  have hcached : ∀ (e : PtyEntry) (c : Int), e.exit_status = some c →
      ∀ w2, checkExitStatus e w2 = (e, true, some c)
        ∧ listPtyHarvest e w2 = (e, true, some c) := by
    intro e c hc w2
    constructor
    · unfold checkExitStatus
      rw [hc]
    · unfold listPtyHarvest
      rw [hc]
  have hsame : ∀ (e : PtyEntry) (w : WaitRes), listPtyHarvest e w = checkExitStatus e w := by
    intro e w
    unfold listPtyHarvest checkExitStatus
    cases he : e.exit_status <;> cases w <;> simp
  have hstatus : ∀ (e : PtyEntry) (w : WaitRes) (e2 : PtyEntry) (c : Int),
      (checkExitStatus e w = (e2, true, some c) ∨
       listPtyHarvest e w = (e2, true, some c)) → e2.exit_status = some c := by
    intro e w e2 c hh
    have hh2 : checkExitStatus e w = (e2, true, some c) := by
      rcases hh with hh | hh
      · exact hh
      · rw [← hsame]; exact hh
    unfold checkExitStatus at hh2
    cases he : e.exit_status with
    | some c0 =>
      rw [he] at hh2
      simp only [Prod.mk.injEq, Option.some.injEq, true_and] at hh2
      obtain ⟨rfl, h3⟩ := hh2
      rw [he, h3]
    | none =>
      rw [he] at hh2
      cases w with
      | exited c0 =>
        simp only [Prod.mk.injEq, Option.some.injEq, true_and] at hh2
        obtain ⟨h1, h3⟩ := hh2
        rw [← h1]
        simp [h3]
      | signaled s =>
        simp only [Prod.mk.injEq, Option.some.injEq, true_and] at hh2
        obtain ⟨h1, h3⟩ := hh2
        rw [← h1]
        simp [h3]
      | stillAlive => simp at hh2
      | errorOrOther => simp at hh2
  constructor
  · intro e w e2 c hh
    have h2 := hstatus e w e2 c (Or.inl hh)
    exact ⟨h2, hcached e2 c h2⟩
  · intro e w e2 c hh
    have h2 := hstatus e w e2 c (Or.inr hh)
    exact ⟨h2, hcached e2 c h2⟩

/-- C10 witness: a SIGKILL death harvested once reports `137` and caches
it; later harvests under a different oracle outcome report the same. -/
theorem pty_exit_status_cached_witness :
    checkExitStatus ⟨42, "sh", none⟩ (.signaled 9)
      = (⟨42, "sh", some 137⟩, true, some 137)
    ∧ (⟨42, "sh", some 137⟩ : PtyEntry).exit_status = some 137
    ∧ checkExitStatus ⟨42, "sh", some 137⟩ (.exited 0)
      = (⟨42, "sh", some 137⟩, true, some 137)
    ∧ listPtyHarvest ⟨42, "sh", some 137⟩ (.exited 0)
      = (⟨42, "sh", some 137⟩, true, some 137) := by
  have h := pty_exit_status_cached.1 ⟨42, "sh", none⟩ (.signaled 9)
    ⟨42, "sh", some 137⟩ 137 (by decide)
  exact ⟨by decide, h.1, (h.2 (.exited 0)).1, (h.2 (.exited 0)).2⟩

end TrampRpc
